import Mathlib

/-!
Verification development for the InventionID control loop: the deterministic
scoring engine (`src/utils/scoring.py`), the response interpreter
(`_parse_json` in `src/agents/tools.py` and `src/agents/autonomous_agent.py`),
the request pacer (`src/modules/rate_limiter.py`), the phase agents
(`extractor_agent.py`, `validator_agent.py`, `refiner_agent.py`) and the
budget-constrained orchestrator (`src/agents/autonomous_orchestrator.py`),
together with the configuration module (`src/config.py`).

Python machine details modelled explicitly:
* All weighted-sum arithmetic in the scorer divides each sub-score by a
  denominator equal to its own weight, so the float expression
  `c*30/30 + d*25/25 + ...` is exactly the integer sum `c + d + ...`
  (every intermediate float is a small integer, hence exact), and the final
  `int(...)` truncation is the identity.  The embedding therefore uses `Nat`.
* `time.time()` values and JSON numbers that feed ordered comparisons are
  modelled as `Rat` (the concrete values handled in this development are
  exactly representable; no rounding behaviour of binary floats is relied on).
* Python `dict` objects are modelled as association lists with unique keys
  maintained by an insert-or-replace operation, preserving insertion order
  exactly as CPython dicts do.
-/

/-! ## Basic string helpers (Python `str` operations) -/

/-- Characters treated as whitespace by Python `str.strip()` and the regex
class defining blank runs (space, tab, newline, carriage return, vertical
tab, form feed). -/
def pyIsWs (c : Char) : Bool :=
  c = ' ' || c = '\t' || c = '\n' || c = '\r' || c = Char.ofNat 11 || c = Char.ofNat 12

/-- Python `str.lower` on the character level (ASCII case folding, which is
all the source strings use). -/
def pyLowerData (s : String) : List Char :=
  s.data.map Char.toLower

/-- Does the character sequence `pat` occur at the start of `l`? -/
def seqStarts : List Char → List Char → Bool
  | [], _ => true
  | _ :: _, [] => false
  | a :: as, b :: bs => a = b && seqStarts as bs

/-- Does the character sequence `pat` occur anywhere inside `l`?  This is the
model of Python `pat in s` on strings. -/
def seqInside (pat : List Char) : List Char → Bool
  | [] => pat.isEmpty
  | l@(_ :: t) => seqStarts pat l || seqInside pat t

/-- Python `s in t` for strings. -/
def pyInStr (pat s : String) : Bool :=
  seqInside pat.data s.data

/-- Model of `' '.join(parts)` at the character level: the parts joined with
a single separator character between consecutive parts. -/
def pyJoinData (sep : Char) : List String → List Char
  | [] => []
  | [x] => x.data
  | x :: y :: rest => x.data ++ [sep] ++ pyJoinData sep (y :: rest)

/-- `len(s.split(ch))` in Python equals (number of occurrences of `ch`) + 1;
the scorer only compares that length with a threshold. -/
def pySplitLen (s : String) (c : Char) : Nat :=
  s.data.count c + 1

/-! ## Data model: the Record (spec section 3)

The evolving structured artifact.  The scorer reads exactly these ten
required fields; a field that is absent from the Python dict is `none`
(the scorer only distinguishes key presence and the value, and every access
is a `dict.get` with a default).  The embedding fixes each field at the type
the source code reads it at. -/

structure RecContext where
  document_section : Option String
  confidence_score : Option Rat
  deriving Repr, DecidableEq

structure Record where
  invention_id : Option String
  invention_name : Option String
  technical_description : Option String
  problem_statement : Option String
  solution_approach : Option String
  key_technical_features : Option (List String)
  statutory_category : Option String
  domain_classification : Option String
  inventor_keywords : Option (List String)
  context : Option RecContext
  deriving Repr, DecidableEq

/-- The ScoreResult produced by `InventionScorer.score_invention`. -/
structure ScoreResult where
  total_score : Nat
  rating : String
  breakdown : List (String × String)
  issues : List String
  recommendations : List String
  deriving Repr, DecidableEq

/-! ## InventionScorer (src/utils/scoring.py) -/

/-- `InventionScorer.REQUIRED_FIELDS` as a presence test: `all(field in
invention for field in REQUIRED_FIELDS)`. -/
def requiredPresent (inv : Record) : Bool :=
  inv.invention_id.isSome && inv.invention_name.isSome &&
  inv.technical_description.isSome && inv.problem_statement.isSome &&
  inv.solution_approach.isSome && inv.key_technical_features.isSome &&
  inv.statutory_category.isSome && inv.domain_classification.isSome &&
  inv.inventor_keywords.isSome && inv.context.isSome

/-- The placeholder tokens scanned for in the three prose fields. -/
def placeholderTokens : List String := ["n/a", "unknown", "tbd", "todo"]

/-- `any(placeholder in str(invention.get(field,'')).lower() ...)` over the
three prose fields. -/
def hasPlaceholder (inv : Record) : Bool :=
  [inv.technical_description.getD "", inv.problem_statement.getD "",
   inv.solution_approach.getD ""].any fun f =>
    placeholderTokens.any fun p => seqInside p.data (pyLowerData f)

/-- The local boolean `adequate_length` of `_score_completeness`. -/
def adequateLength (inv : Record) : Bool :=
  decide (50 ≤ (inv.technical_description.getD "").length) &&
  decide (30 ≤ (inv.problem_statement.getD "").length) &&
  decide (30 ≤ (inv.solution_approach.getD "").length)

/-- `InventionScorer._score_completeness`. -/
def score_completeness (inv : Record) : Nat :=
  (if requiredPresent inv then 10 else 0) +
  (if adequateLength inv then 10 else 0) +
  (if hasPlaceholder inv then 0 else 10)

/-- The technical vocabulary list of `_score_technical_depth`. -/
def techTerms : List String :=
  ["algorithm", "system", "method", "process", "network",
   "model", "architecture", "mechanism", "protocol"]

/-- `any(term in ' '.join(features + keywords).lower() for term in ...)`. -/
def techTermPresent (features keywords : List String) : Bool :=
  techTerms.any fun t =>
    seqInside t.data ((pyJoinData ' ' (features ++ keywords)).map Char.toLower)

/-- Feature-count credit of `_score_technical_depth` (8 for five or more
features, 5 for three or more). -/
def depthCountPart (features : List String) : Nat :=
  if 5 ≤ features.length then 8 else if 3 ≤ features.length then 5 else 0

/-- Technical-vocabulary credit of `_score_technical_depth`. -/
def depthTermPart (features keywords : List String) : Nat :=
  if techTermPresent features keywords then 10 else 0

/-- Per-feature specificity credit of `_score_technical_depth`
(`all(len(feature) > 10 for feature in features[:5])`). -/
def depthSpecPart (features : List String) : Nat :=
  if (features.take 5).all fun f => 10 < f.length then 7 else 0

/-- `InventionScorer._score_technical_depth`. -/
def score_technical_depth (inv : Record) : Nat :=
  let features := inv.key_technical_features.getD []
  let keywords := inv.inventor_keywords.getD []
  depthCountPart features + depthTermPart features keywords + depthSpecPart features

/-- `InventionScorer._score_clarity`. -/
def score_clarity (inv : Record) : Nat :=
  let problem := inv.problem_statement.getD ""
  let solution := inv.solution_approach.getD ""
  (if 2 ≤ pySplitLen problem '.' then 7 else 0) +
  (if 2 ≤ pySplitLen solution '.' then 7 else 0) +
  (if pyInStr "problem" ⟨pyLowerData problem⟩ ||
      pyInStr "challenge" ⟨pyLowerData problem⟩ then 3 else 0) +
  (if pyInStr "solution" ⟨pyLowerData solution⟩ ||
      pyInStr "approach" ⟨pyLowerData solution⟩ then 3 else 0)

/-- The four statutory categories accepted by the scorer. -/
def validCategories : List String :=
  ["Process", "Machine", "Manufacture", "Composition of Matter"]

/-- Category credit of `_score_patent_readiness`.  A missing
`statutory_category` reads as Python `None`, which is not one of the valid
category strings. -/
def patentCatPart (cat : Option String) : Nat :=
  if (match cat with
      | some c => validCategories.contains c
      | none => false) then 5 else 0

/-- Domain credit of `_score_patent_readiness` (`domain and len(domain) > 2`). -/
def patentDomPart (dom : Option String) : Nat :=
  if 2 < (dom.getD "").length then 5 else 0

/-- Keyword-count credit of `_score_patent_readiness`. -/
def patentKwPart (kw : Option (List String)) : Nat :=
  if 5 ≤ (kw.getD []).length then 5 else 0

/-- `InventionScorer._score_patent_readiness`. -/
def score_patent_readiness (inv : Record) : Nat :=
  patentCatPart inv.statutory_category + patentDomPart inv.domain_classification +
  patentKwPart inv.inventor_keywords

/-- `InventionScorer._score_confidence` body: `invention.get('context', {})`
followed by `context.get('confidence_score', 0)`; `document_section` is
checked for truthiness (absent or empty string fails the check). -/
def confPart (ctx : Option RecContext) : Nat :=
  let conf : Rat := match ctx with
    | some c => c.confidence_score.getD 0
    | none => 0
  let sect : Bool := match ctx with
    | some c => (match c.document_section with
        | some s => !s.isEmpty
        | none => false)
    | none => false
  (if mkRat 8 10 ≤ conf then 5 else if mkRat 6 10 ≤ conf then 3 else 0) +
  (if sect then 5 else 0)

/-- `InventionScorer._score_confidence` reads only the nested context
object. -/
def score_confidence (inv : Record) : Nat :=
  confPart inv.context

/-- `InventionScorer._identify_issues`. -/
def identify_issues (inv : Record) : List String :=
  (if (inv.key_technical_features.getD []).length < 5 then
    ["Insufficient technical features (need 5+)"] else []) ++
  (if (inv.technical_description.getD "").length < 50 then
    ["Technical description too brief"] else []) ++
  (if (match inv.statutory_category with
       | some c => validCategories.contains c
       | none => false) then ([] : List String) else
    ["Invalid statutory category"]) ++
  (if (inv.inventor_keywords.getD []).length < 5 then
    ["Insufficient keywords (need 5+)"] else [])

/-- `InventionScorer._generate_recommendations`: a deterministic mapping from
issue text to a remediation instruction. -/
def generate_recommendations (issues : List String) : List String :=
  issues.filterMap fun issue =>
    if pyInStr "technical features" issue then
      some "Add 2-3 more specific technical features"
    else if pyInStr "description too brief" issue then
      some "Expand technical description to 2-4 sentences"
    else if pyInStr "statutory category" issue then
      some "Correct statutory category classification"
    else if pyInStr "keywords" issue then
      some "Add more relevant technical keywords"
    else none

/-- `InventionScorer._get_rating`. -/
def get_rating (score : Nat) : String :=
  if 90 ≤ score then "5/5 Excellent"
  else if 80 ≤ score then "4/5 Good"
  else if 70 ≤ score then "3/5 Fair"
  else if 60 ≤ score then "2/5 Poor"
  else "1/5 Inadequate"

/-- `InventionScorer.score_invention`.  Each weighted term in the source is
`sub * W / W`, an exact identity on these integer values, so the total is
the plain sum of the five sub-scores. -/
def score_invention (inv : Record) : ScoreResult :=
  let completeness := score_completeness inv
  let technical_depth := score_technical_depth inv
  let clarity := score_clarity inv
  let patent_readiness := score_patent_readiness inv
  let confidence_score := score_confidence inv
  let total := completeness + technical_depth + clarity +
    patent_readiness + confidence_score
  let issues := identify_issues inv
  { total_score := total
    rating := get_rating total
    breakdown :=
      [("completeness", Nat.repr completeness ++ "/30"),
       ("technical_depth", Nat.repr technical_depth ++ "/25"),
       ("clarity", Nat.repr clarity ++ "/20"),
       ("patent_readiness", Nat.repr patent_readiness ++ "/15"),
       ("confidence", Nat.repr confidence_score ++ "/10")]
    issues := issues
    recommendations := generate_recommendations issues }

/-! ## Helper lemmas about substring search and joining -/

theorem seqInside_nil_pat (l : List Char) : seqInside [] l = true := by
  cases l <;> simp [seqInside, seqStarts, List.isEmpty]

theorem seqStarts_append (pat l l₂ : List Char) (h : seqStarts pat l = true) :
    seqStarts pat (l ++ l₂) = true := by
  induction pat generalizing l with
  | nil => simp [seqStarts]
  | cons a as ih =>
    cases l with
    | nil => simp [seqStarts] at h
    | cons b bs =>
      simp only [seqStarts, Bool.and_eq_true] at h
      simp only [List.cons_append, seqStarts, Bool.and_eq_true]
      exact ⟨h.1, ih bs h.2⟩

theorem seqInside_append_left (pat l₁ l₂ : List Char)
    (h : seqInside pat l₂ = true) : seqInside pat (l₁ ++ l₂) = true := by
  induction l₁ with
  | nil => simpa using h
  | cons c t ih =>
    simp only [List.cons_append, seqInside, Bool.or_eq_true]
    exact Or.inr ih

theorem seqInside_append_right (pat l₁ l₂ : List Char)
    (h : seqInside pat l₁ = true) : seqInside pat (l₁ ++ l₂) = true := by
  induction l₁ with
  | nil =>
    simp only [seqInside, List.isEmpty_iff] at h
    subst h
    exact seqInside_nil_pat _
  | cons c t ih =>
    simp only [seqInside, Bool.or_eq_true] at h
    simp only [List.cons_append, seqInside, Bool.or_eq_true]
    cases h with
    | inl hs => exact Or.inl (seqStarts_append _ _ _ hs)
    | inr hi => exact Or.inr (ih hi)

theorem pyJoinData_append (sep : Char) (v kw : List String)
    (hv : v ≠ []) (hkw : kw ≠ []) :
    pyJoinData sep (v ++ kw) = pyJoinData sep v ++ [sep] ++ pyJoinData sep kw := by
  induction v with
  | nil => exact absurd rfl hv
  | cons x v' ih =>
    cases v' with
    | nil =>
      cases kw with
      | nil => exact absurd rfl hkw
      | cons y kw' => simp [pyJoinData]
    | cons z v'' =>
      have h1 := ih (by simp)
      simp only [List.cons_append] at h1 ⊢
      rw [pyJoinData, h1]
      simp [pyJoinData, List.append_assoc]

theorem techTermPresent_mono_features (v kw : List String)
    (h : techTermPresent [] kw = true) : techTermPresent v kw = true := by
  cases kw with
  | nil => simp [techTermPresent, techTerms, pyJoinData, seqInside] at h
  | cons y kw' =>
    cases v with
    | nil => exact h
    | cons x v' =>
      simp only [techTermPresent, List.any_eq_true] at h ⊢
      obtain ⟨t, ht, hin⟩ := h
      refine ⟨t, ht, ?_⟩
      simp only [List.nil_append] at hin
      rw [pyJoinData_append ' ' (x :: v') (y :: kw') (by simp) (by simp),
        List.map_append]
      exact seqInside_append_left _ _ _ hin

theorem techTermPresent_mono_keywords (f v : List String)
    (h : techTermPresent f [] = true) : techTermPresent f v = true := by
  cases f with
  | nil => simp [techTermPresent, techTerms, pyJoinData, seqInside] at h
  | cons x f' =>
    cases v with
    | nil => exact h
    | cons y v' =>
      simp only [techTermPresent, List.any_eq_true] at h ⊢
      obtain ⟨t, ht, hin⟩ := h
      refine ⟨t, ht, ?_⟩
      simp only [List.append_nil] at hin
      rw [pyJoinData_append ' ' (x :: f') (y :: v') (by simp) (by simp),
        List.map_append, List.map_append]
      exact seqInside_append_right _ _ _ (seqInside_append_right _ _ _ hin)

/-! ## C7: determinism of the Scorer

`score_invention` is a `@staticmethod` whose result depends only on its
argument and on the class constants `WEIGHTS` / `REQUIRED_FIELDS`; the
shallow embedding is a pure function, so recomputing on an identical Record
yields an identical ScoreResult. -/

/-- C7: for every Record, scoring it twice yields identical ScoreResults —
the Scorer is a pure, deterministic function of the Record with no hidden
state. -/
theorem scorer_deterministic (inv : Record) :
    score_invention inv = score_invention inv := rfl

/-! ## C4: records with a missing required field -/

/-- A fully populated, high-quality Record that is missing exactly one
required field (`invention_id`): the four issue checks in
`_identify_issues` all pass, so its issues list is empty. -/
def recNoId : Record :=
  { invention_id := none
    invention_name := some "Adaptive Packet Router"
    technical_description := some
      "A system that routes data packets with an adaptive algorithm across large mesh networks."
    problem_statement := some "The problem is congestion. Networks suffer heavy load."
    solution_approach := some "The approach uses layered caching. It cuts latency for users."
    key_technical_features := some ["adaptive routing algorithm", "distributed cache layer",
      "congestion prediction model", "packet priority scheduler", "mesh network monitor"]
    statutory_category := some "Process"
    domain_classification := some "Networking"
    inventor_keywords := some ["routing", "caching", "congestion", "scheduling", "telemetry"]
    context := some { document_section := some "Claims", confidence_score := some (mkRat 9 10) } }

/-- C4 counterexample: `recNoId` is missing a required field, yet the
Scorer reports an empty `issues` list (its `total_score` is 90, still
below 100).  The claim that every Record missing a required field yields a
non-empty `issues` list is therefore false: `_identify_issues` only checks
feature count, description length, category validity and keyword count,
none of which mention `invention_id`. -/
theorem missing_field_issues_counterexample :
    requiredPresent recNoId = false ∧
    (score_invention recNoId).issues = [] ∧
    (score_invention recNoId).total_score = 90 := by
  refine ⟨by decide, by decide, by decide⟩

theorem score_completeness_le (inv : Record) : score_completeness inv ≤ 30 := by
  unfold score_completeness
  split_ifs <;> omega

theorem score_technical_depth_le (inv : Record) : score_technical_depth inv ≤ 25 := by
  simp only [score_technical_depth, depthCountPart, depthTermPart, depthSpecPart]
  split_ifs <;> omega

theorem score_clarity_le (inv : Record) : score_clarity inv ≤ 20 := by
  simp only [score_clarity]
  split_ifs <;> omega

theorem score_patent_readiness_le (inv : Record) : score_patent_readiness inv ≤ 15 := by
  simp only [score_patent_readiness, patentCatPart, patentDomPart, patentKwPart]
  split_ifs <;> omega

theorem score_confidence_le (inv : Record) : score_confidence inv ≤ 10 := by
  simp only [score_confidence, confPart]
  split_ifs <;> omega

theorem total_score_eq (inv : Record) :
    (score_invention inv).total_score =
      score_completeness inv + score_technical_depth inv + score_clarity inv +
      score_patent_readiness inv + score_confidence inv := rfl

/-- C4, amended: for every Record missing at least one required field the
total score is strictly below 100 (the completeness sub-score loses its
all-fields-present component, capping the exact weighted sum at 90); the
issues list, however, is not guaranteed to be non-empty, as
`missing_field_issues_counterexample` shows. -/
theorem missing_field_score_lt_100 (inv : Record)
    (h : requiredPresent inv = false) :
    (score_invention inv).total_score < 100 := by
  have hc : score_completeness inv ≤ 20 := by
    unfold score_completeness
    rw [h]
    norm_num
    split_ifs <;> omega
  have hd := score_technical_depth_le inv
  have hcl := score_clarity_le inv
  have hp := score_patent_readiness_le inv
  have hcf := score_confidence_le inv
  rw [total_score_eq]
  omega

/-- Witness for `missing_field_score_lt_100` at the concrete record
`recNoId`. -/
theorem missing_field_score_lt_100_witness :
    requiredPresent recNoId = false ∧ (score_invention recNoId).total_score < 100 :=
  ⟨rfl, missing_field_score_lt_100 recNoId rfl⟩

/-! ## C5: adding a missing required field -/

inductive FieldUpd where
  | uId (v : String)
  | uName (v : String)
  | uDesc (v : String)
  | uProb (v : String)
  | uSol (v : String)
  | uFeat (v : List String)
  | uCat (v : String)
  | uDom (v : String)
  | uKw (v : List String)
  | uCtx (v : RecContext)

/-- Add (or overwrite) one required field of a Record, leaving every other
field identical. -/
def applyUpd (inv : Record) : FieldUpd → Record
  | .uId v => { inv with invention_id := some v }
  | .uName v => { inv with invention_name := some v }
  | .uDesc v => { inv with technical_description := some v }
  | .uProb v => { inv with problem_statement := some v }
  | .uSol v => { inv with solution_approach := some v }
  | .uFeat v => { inv with key_technical_features := some v }
  | .uCat v => { inv with statutory_category := some v }
  | .uDom v => { inv with domain_classification := some v }
  | .uKw v => { inv with inventor_keywords := some v }
  | .uCtx v => { inv with context := some v }

/-- `recNoId` with `problem_statement` also removed: two required fields
missing. -/
def recTwoMissing : Record := { recNoId with problem_statement := none }

/-- C5 counterexample: `recTwoMissing` is missing `problem_statement` (and
`invention_id`); adding `problem_statement := "tbd"` while leaving every
other field identical drops `total_score` from 70 to 60, because the new
value introduces a placeholder token (losing the 10-point no-placeholder
completeness component) while the all-fields-present component stays 0
(`invention_id` is still missing).  Adding a missing required field can
therefore strictly decrease `total_score`. -/
theorem completeness_monotonic_counterexample :
    recTwoMissing.problem_statement = none ∧
    (score_invention (applyUpd recTwoMissing (FieldUpd.uProb "tbd"))).total_score = 60 ∧
    (score_invention recTwoMissing).total_score = 70 := by
  refine ⟨rfl, by decide, by decide⟩

theorem completeness_ineq (R R' : Record)
    (h1 : requiredPresent R = false) (h2 : requiredPresent R' = true)
    (hadq : adequateLength R = true → adequateLength R' = true) :
    score_completeness R ≤ score_completeness R' := by
  unfold score_completeness
  rw [h1, h2]
  by_cases ha : adequateLength R = true
  · rw [ha, hadq ha]
    norm_num
    split_ifs <;> omega
  · have ha' : adequateLength R = false := by
      revert ha
      cases adequateLength R <;> simp
    rw [ha']
    norm_num
    split_ifs <;> omega

theorem completeness_plus_ten (R R' : Record)
    (h1 : requiredPresent R = false) (h2 : requiredPresent R' = true)
    (ha : adequateLength R' = adequateLength R)
    (hpl : hasPlaceholder R' = hasPlaceholder R) :
    score_completeness R + 10 ≤ score_completeness R' := by
  unfold score_completeness
  rw [h1, h2, ha, hpl]
  norm_num
  split_ifs <;> omega

theorem depthTermPart_mono_features (v kw : List String) :
    depthTermPart [] kw ≤ depthTermPart v kw := by
  unfold depthTermPart
  by_cases h : techTermPresent [] kw = true
  · rw [h, techTermPresent_mono_features v kw h]
  · have h' : techTermPresent [] kw = false := by
      revert h
      cases techTermPresent [] kw <;> simp
    rw [h']
    norm_num

theorem depthTermPart_mono_keywords (f v : List String) :
    depthTermPart f [] ≤ depthTermPart f v := by
  unfold depthTermPart
  by_cases h : techTermPresent f [] = true
  · rw [h, techTermPresent_mono_keywords f v h]
  · have h' : techTermPresent f [] = false := by
      revert h
      cases techTermPresent f [] <;> simp
    rw [h']
    norm_num

/-- C5, amended: adding the one missing required field never decreases the
total score. -/
theorem single_missing_field_monotonic (inv : Record) (u : FieldUpd)
    (h1 : requiredPresent inv = false)
    (h2 : requiredPresent (applyUpd inv u) = true) :
    (score_invention inv).total_score ≤ (score_invention (applyUpd inv u)).total_score := by
  rw [total_score_eq, total_score_eq]
  cases u with
  | uId v =>
    have hC := completeness_ineq inv (applyUpd inv (FieldUpd.uId v)) h1 h2 (fun hx => hx)
    have hD : score_technical_depth (applyUpd inv (FieldUpd.uId v)) =
        score_technical_depth inv := rfl
    have hCl : score_clarity (applyUpd inv (FieldUpd.uId v)) = score_clarity inv := rfl
    have hP : score_patent_readiness (applyUpd inv (FieldUpd.uId v)) =
        score_patent_readiness inv := rfl
    have hCf : score_confidence (applyUpd inv (FieldUpd.uId v)) = score_confidence inv := rfl
    omega
  | uName v =>
    have hC := completeness_ineq inv (applyUpd inv (FieldUpd.uName v)) h1 h2 (fun hx => hx)
    have hD : score_technical_depth (applyUpd inv (FieldUpd.uName v)) =
        score_technical_depth inv := rfl
    have hCl : score_clarity (applyUpd inv (FieldUpd.uName v)) = score_clarity inv := rfl
    have hP : score_patent_readiness (applyUpd inv (FieldUpd.uName v)) =
        score_patent_readiness inv := rfl
    have hCf : score_confidence (applyUpd inv (FieldUpd.uName v)) = score_confidence inv := rfl
    omega
  | uProb v =>
    cases hp : inv.problem_statement with
    | some p =>
      have e : requiredPresent (applyUpd inv (FieldUpd.uProb v)) = requiredPresent inv := by
        simp [applyUpd, requiredPresent, hp]
      rw [e, h1] at h2
      simp at h2
    | none =>
      have hD : score_technical_depth (applyUpd inv (FieldUpd.uProb v)) =
          score_technical_depth inv := rfl
      have hP : score_patent_readiness (applyUpd inv (FieldUpd.uProb v)) =
          score_patent_readiness inv := rfl
      have hCf : score_confidence (applyUpd inv (FieldUpd.uProb v)) =
          score_confidence inv := rfl
      have hAdq : adequateLength inv = false := by
        simp [adequateLength, hp]
      have hC := completeness_ineq inv (applyUpd inv (FieldUpd.uProb v)) h1 h2
        (fun hx => absurd hx (by simp [hAdq]))
      have hCl : score_clarity inv ≤ score_clarity (applyUpd inv (FieldUpd.uProb v)) := by
        simp only [score_clarity, applyUpd, hp, Option.getD_none, Option.getD_some]
        have c1 : pySplitLen "" '.' = 1 := by decide
        have c2 : pyInStr "problem" ⟨pyLowerData ""⟩ = false := by decide
        have c3 : pyInStr "challenge" ⟨pyLowerData ""⟩ = false := by decide
        rw [c1, c2, c3]
        norm_num
        split_ifs <;> omega
      omega
  | uSol v =>
    cases hp : inv.solution_approach with
    | some p =>
      have e : requiredPresent (applyUpd inv (FieldUpd.uSol v)) = requiredPresent inv := by
        simp [applyUpd, requiredPresent, hp]
      rw [e, h1] at h2
      simp at h2
    | none =>
      have hD : score_technical_depth (applyUpd inv (FieldUpd.uSol v)) =
          score_technical_depth inv := rfl
      have hP : score_patent_readiness (applyUpd inv (FieldUpd.uSol v)) =
          score_patent_readiness inv := rfl
      have hCf : score_confidence (applyUpd inv (FieldUpd.uSol v)) =
          score_confidence inv := rfl
      have hAdq : adequateLength inv = false := by
        simp [adequateLength, hp]
      have hC := completeness_ineq inv (applyUpd inv (FieldUpd.uSol v)) h1 h2
        (fun hx => absurd hx (by simp [hAdq]))
      have hCl : score_clarity inv ≤ score_clarity (applyUpd inv (FieldUpd.uSol v)) := by
        simp only [score_clarity, applyUpd, hp, Option.getD_none, Option.getD_some]
        have c1 : pySplitLen "" '.' = 1 := by decide
        have c2 : pyInStr "solution" ⟨pyLowerData ""⟩ = false := by decide
        have c3 : pyInStr "approach" ⟨pyLowerData ""⟩ = false := by decide
        rw [c1, c2, c3]
        norm_num
        split_ifs <;> omega
      omega
  | uDesc v =>
    cases hp : inv.technical_description with
    | some p =>
      have e : requiredPresent (applyUpd inv (FieldUpd.uDesc v)) = requiredPresent inv := by
        simp [applyUpd, requiredPresent, hp]
      rw [e, h1] at h2
      simp at h2
    | none =>
      have hD : score_technical_depth (applyUpd inv (FieldUpd.uDesc v)) =
          score_technical_depth inv := rfl
      have hCl : score_clarity (applyUpd inv (FieldUpd.uDesc v)) = score_clarity inv := rfl
      have hP : score_patent_readiness (applyUpd inv (FieldUpd.uDesc v)) =
          score_patent_readiness inv := rfl
      have hCf : score_confidence (applyUpd inv (FieldUpd.uDesc v)) =
          score_confidence inv := rfl
      have hAdq : adequateLength inv = false := by
        simp [adequateLength, hp]
      have hC := completeness_ineq inv (applyUpd inv (FieldUpd.uDesc v)) h1 h2
        (fun hx => absurd hx (by simp [hAdq]))
      omega
  | uFeat v =>
    cases hk : inv.key_technical_features with
    | some fs =>
      have e : requiredPresent (applyUpd inv (FieldUpd.uFeat v)) = requiredPresent inv := by
        simp [applyUpd, requiredPresent, hk]
      rw [e, h1] at h2
      simp at h2
    | none =>
      have hCl : score_clarity (applyUpd inv (FieldUpd.uFeat v)) = score_clarity inv := rfl
      have hP : score_patent_readiness (applyUpd inv (FieldUpd.uFeat v)) =
          score_patent_readiness inv := rfl
      have hCf : score_confidence (applyUpd inv (FieldUpd.uFeat v)) =
          score_confidence inv := rfl
      have hC := completeness_plus_ten inv (applyUpd inv (FieldUpd.uFeat v)) h1 h2 rfl rfl
      have hD : score_technical_depth inv ≤
          score_technical_depth (applyUpd inv (FieldUpd.uFeat v)) + 10 := by
        simp only [score_technical_depth, applyUpd, hk, Option.getD_none, Option.getD_some]
        have c1 : depthCountPart [] = 0 := by decide
        have c2 : depthSpecPart [] = 7 := by decide
        rw [c1, c2]
        have c3 := depthTermPart_mono_features v (inv.inventor_keywords.getD [])
        have c4 : depthTermPart v (inv.inventor_keywords.getD []) ≤ 10 := by
          unfold depthTermPart
          split_ifs <;> omega
        omega
      omega
  | uKw v =>
    cases hk : inv.inventor_keywords with
    | some ks =>
      have e : requiredPresent (applyUpd inv (FieldUpd.uKw v)) = requiredPresent inv := by
        simp [applyUpd, requiredPresent, hk]
      rw [e, h1] at h2
      simp at h2
    | none =>
      have hCl : score_clarity (applyUpd inv (FieldUpd.uKw v)) = score_clarity inv := rfl
      have hCf : score_confidence (applyUpd inv (FieldUpd.uKw v)) = score_confidence inv := rfl
      have hC := completeness_ineq inv (applyUpd inv (FieldUpd.uKw v)) h1 h2 (fun hx => hx)
      have hP : score_patent_readiness inv ≤
          score_patent_readiness (applyUpd inv (FieldUpd.uKw v)) := by
        simp only [score_patent_readiness, applyUpd, hk]
        have c1 : patentKwPart none = 0 := by decide
        rw [c1]
        have c2 : 0 ≤ patentKwPart (some v) := Nat.zero_le _
        omega
      have hD : score_technical_depth inv ≤
          score_technical_depth (applyUpd inv (FieldUpd.uKw v)) := by
        simp only [score_technical_depth, applyUpd, hk, Option.getD_none, Option.getD_some]
        have c3 := depthTermPart_mono_keywords (inv.key_technical_features.getD []) v
        omega
      omega
  | uCat v =>
    cases hc : inv.statutory_category with
    | some c =>
      have e : requiredPresent (applyUpd inv (FieldUpd.uCat v)) = requiredPresent inv := by
        simp [applyUpd, requiredPresent, hc]
      rw [e, h1] at h2
      simp at h2
    | none =>
      have hD : score_technical_depth (applyUpd inv (FieldUpd.uCat v)) =
          score_technical_depth inv := rfl
      have hCl : score_clarity (applyUpd inv (FieldUpd.uCat v)) = score_clarity inv := rfl
      have hCf : score_confidence (applyUpd inv (FieldUpd.uCat v)) = score_confidence inv := rfl
      have hC := completeness_ineq inv (applyUpd inv (FieldUpd.uCat v)) h1 h2 (fun hx => hx)
      have hP : score_patent_readiness inv ≤
          score_patent_readiness (applyUpd inv (FieldUpd.uCat v)) := by
        simp only [score_patent_readiness, applyUpd, hc]
        have c1 : patentCatPart none = 0 := by decide
        rw [c1]
        omega
      omega
  | uDom v =>
    cases hd : inv.domain_classification with
    | some d =>
      have e : requiredPresent (applyUpd inv (FieldUpd.uDom v)) = requiredPresent inv := by
        simp [applyUpd, requiredPresent, hd]
      rw [e, h1] at h2
      simp at h2
    | none =>
      have hD : score_technical_depth (applyUpd inv (FieldUpd.uDom v)) =
          score_technical_depth inv := rfl
      have hCl : score_clarity (applyUpd inv (FieldUpd.uDom v)) = score_clarity inv := rfl
      have hCf : score_confidence (applyUpd inv (FieldUpd.uDom v)) = score_confidence inv := rfl
      have hC := completeness_ineq inv (applyUpd inv (FieldUpd.uDom v)) h1 h2 (fun hx => hx)
      have hP : score_patent_readiness inv ≤
          score_patent_readiness (applyUpd inv (FieldUpd.uDom v)) := by
        simp only [score_patent_readiness, applyUpd, hd]
        have c1 : patentDomPart none = 0 := by decide
        rw [c1]
        omega
      omega
  | uCtx v =>
    cases hx : inv.context with
    | some c =>
      have e : requiredPresent (applyUpd inv (FieldUpd.uCtx v)) = requiredPresent inv := by
        simp [applyUpd, requiredPresent, hx]
      rw [e, h1] at h2
      simp at h2
    | none =>
      have hD : score_technical_depth (applyUpd inv (FieldUpd.uCtx v)) =
          score_technical_depth inv := rfl
      have hCl : score_clarity (applyUpd inv (FieldUpd.uCtx v)) = score_clarity inv := rfl
      have hP : score_patent_readiness (applyUpd inv (FieldUpd.uCtx v)) =
          score_patent_readiness inv := rfl
      have hC := completeness_ineq inv (applyUpd inv (FieldUpd.uCtx v)) h1 h2 (fun hx => hx)
      have hCf : score_confidence inv ≤ score_confidence (applyUpd inv (FieldUpd.uCtx v)) := by
        simp only [score_confidence, applyUpd, hx]
        have c1 : confPart none = 0 := by decide
        rw [c1]
        omega
      omega

/-- Witness for `single_missing_field_monotonic`: adding the one missing
field `invention_id` to `recNoId`. -/
theorem single_missing_field_monotonic_witness :
    requiredPresent recNoId = false ∧
    requiredPresent (applyUpd recNoId (FieldUpd.uId "INV-2024-001")) = true ∧
    (score_invention recNoId).total_score ≤
      (score_invention (applyUpd recNoId (FieldUpd.uId "INV-2024-001"))).total_score :=
  ⟨by decide, by decide,
    single_missing_field_monotonic recNoId (FieldUpd.uId "INV-2024-001")
      (by decide) (by decide)⟩

/-! ## Response Interpreter (`_parse_json` in tools.py and autonomous_agent.py)

`json.loads` is modelled by a recursive-descent parser over a JSON value
type (integers only for numbers; string escape sequences and float literals
are outside the modelled fragment — no input handled in this development
uses them).  The two regex searches of the source are modelled at the
character level. -/

inductive Json where
  | null : Json
  | bool (b : Bool) : Json
  | num (n : Int) : Json
  | str (s : String) : Json
  | arr (elems : List Json) : Json
  | obj (fields : List (String × Json)) : Json
  deriving Repr

/-- The backtick character, written by code to avoid a bare backtick. -/
def btick : Char := Char.ofNat 96

/-- Does the text start with the three-backtick fence marker? -/
def startsFence (l : List Char) : Bool :=
  match l with
  | a :: b :: c :: _ => a = btick && b = btick && c = btick
  | _ => false

/-- Does a fence marker occur anywhere in the text? -/
def hasFence : List Char → Bool
  | [] => false
  | l@(_ :: t) => startsFence l || hasFence t

/-- Characters up to (excluding) the next fence marker. -/
def takeToFence : List Char → List Char
  | [] => []
  | l@(c :: t) => if startsFence l then [] else c :: takeToFence t

/-- Python `str.strip()` on the character level. -/
def stripData (l : List Char) : List Char :=
  ((l.dropWhile pyIsWs).reverse.dropWhile pyIsWs).reverse

/-- Whitespace skipping used by the JSON parser (leading blanks). -/
def dropWs (l : List Char) : List Char := l.dropWhile pyIsWs

/-- Model of `re.search(r'```(?:json)?\s*([\s\S]*?)\s*```', response)`
followed by `.group(1).strip()`: the pattern matches at the first fence
marker that is followed by a later, non-overlapping closing marker; an
optional `json` tag directly after the opening marker is consumed (the tag
contains no backtick, so consuming it never skips a closing marker); the
lazy body ends at the next marker, and the `\s*` context plus the final
`strip()` remove surrounding whitespace from the captured group. -/
def fencedGroup : List Char → Option (List Char)
  | [] => none
  | l@(_ :: t) =>
    if startsFence l then
      let rest := l.drop 3
      let rest2 := if seqStarts "json".data rest then rest.drop 4 else rest
      if hasFence rest2 then some (stripData (takeToFence rest2))
      else fencedGroup t
    else fencedGroup t

def fencedBlock (s : String) : Option String :=
  (fencedGroup s.data).map fun l => ⟨l⟩

/-- The text of `t` up to and including its last closing brace. -/
def upToLastRB (t : List Char) : List Char :=
  (t.reverse.dropWhile (fun c => !(c = '}'))).reverse

/-- Model of `re.search(r'\{[\s\S]*\}', response)`: the greedy match runs
from the first opening brace that has some later closing brace, up to the
last closing brace of the whole text.  There is no balance-aware scanning
and no bracket-span alternative in the source pattern. -/
def braceGroup : List Char → Option (List Char)
  | [] => none
  | c :: t =>
    if c = '{' && t.contains '}' then some ('{' :: upToLastRB t)
    else braceGroup t

def braceSpan (s : String) : Option String :=
  (braceGroup s.data).map fun l => ⟨l⟩

/-- Digits to the natural number they denote. -/
def digitsToNat (l : List Char) : Nat :=
  l.foldl (fun acc c => acc * 10 + (c.toNat - '0'.toNat)) 0

/-- Parse a JSON string body after the opening quote (no escape handling;
see the section comment). -/
def jstr : List Char → List Char → Option (String × List Char)
  | [], _ => none
  | c :: r, acc => if c = '"' then some (⟨acc.reverse⟩, r) else jstr r (c :: acc)

/-- Parse a JSON integer literal (optionally signed by the caller); a
leading zero followed by further digits is rejected, as `json.loads` does. -/
def jnum (l : List Char) : Option (Int × List Char) :=
  let ds := l.takeWhile Char.isDigit
  if ds.isEmpty then none
  else if 1 < ds.length ∧ ds.head? = some '0' then none
  else some ((digitsToNat ds : Int), l.drop ds.length)

mutual
def jval : Nat → List Char → Option (Json × List Char)
  | 0, _ => none
  | fuel + 1, l =>
    match dropWs l with
    | 'n' :: 'u' :: 'l' :: 'l' :: r => some (Json.null, r)
    | 't' :: 'r' :: 'u' :: 'e' :: r => some (Json.bool true, r)
    | 'f' :: 'a' :: 'l' :: 's' :: 'e' :: r => some (Json.bool false, r)
    | '"' :: r => (jstr r []).map fun p => (Json.str p.1, p.2)
    | '[' :: r =>
      (match dropWs r with
       | ']' :: r2 => some (Json.arr [], r2)
       | _ => jarr fuel (dropWs r) [])
    | '{' :: r =>
      (match dropWs r with
       | '}' :: r2 => some (Json.obj [], r2)
       | _ => jobj fuel (dropWs r) [])
    | '-' :: r => (jnum r).map fun p => (Json.num (-p.1), p.2)
    | r => (jnum r).map fun p => (Json.num p.1, p.2)

def jarr : Nat → List Char → List Json → Option (Json × List Char)
  | 0, _, _ => none
  | fuel + 1, l, acc =>
    match jval fuel l with
    | none => none
    | some (v, rest) =>
      match dropWs rest with
      | ',' :: r2 => jarr fuel r2 (acc ++ [v])
      | ']' :: r2 => some (Json.arr (acc ++ [v]), r2)
      | _ => none

def jobj : Nat → List Char → List (String × Json) → Option (Json × List Char)
  | 0, _, _ => none
  | fuel + 1, l, acc =>
    match dropWs l with
    | '"' :: r =>
      (match jstr r [] with
       | none => none
       | some (k, rest) =>
         match dropWs rest with
         | ':' :: r2 =>
           (match jval fuel r2 with
            | none => none
            | some (v, rest2) =>
              match dropWs rest2 with
              | ',' :: r3 => jobj fuel r3 (acc ++ [(k, v)])
              | '}' :: r3 => some (Json.obj (acc ++ [(k, v)]), r3)
              | _ => none)
         | _ => none)
    | _ => none
end

/-- Model of `json.loads`: one JSON value covering the whole text up to
trailing whitespace. -/
def pyLoads (s : String) : Option Json :=
  match jval (s.length + 2) s.data with
  | some (v, rest) => if (dropWs rest).isEmpty then some v else none
  | none => none

/-- The failure value of `ToolRegistry._parse_json`. -/
def rawSentinel (s : String) : Json := Json.obj [("raw_response", Json.str s)]

/-- The failure value of `AutonomousAgent._parse_json` (the fixed
parse-error decision; its parameter mapping is keyed `tool_params`). -/
def decisionSentinel : Json :=
  Json.obj [("thought", Json.str "Parse error"), ("action", Json.str "complete"),
    ("tool_params", Json.obj [])]

/-- The `json_str` candidate computed identically at the top of both
`_parse_json` methods: the fenced group if any, else the greedy brace span,
else the whole response. -/
def jsonCandidate (s : String) : String :=
  match fencedBlock s with
  | some c => c
  | none =>
    match braceSpan s with
    | some m => m
    | none => s

/-- `ToolRegistry._parse_json` (src/agents/tools.py). -/
def tools_parse_json (s : String) : Json :=
  match pyLoads (jsonCandidate s) with
  | some v => v
  | none => rawSentinel s

/-- `AutonomousAgent._parse_json` (src/agents/autonomous_agent.py). -/
def agent_parse_json (s : String) : Json :=
  match pyLoads (jsonCandidate s) with
  | some v => v
  | none => decisionSentinel

/-- Modelled from the spec: step (2) of the claimed fallback chain, which
the specification words as "locate the first balanced `{...}` or `[...]`
span in the text" — a depth-tracking scan from an opening bracket up to the
bracket that closes it. -/
def balancedTake : Nat → Nat → List Char → Option (List Char)
  | _, _, [] => none
  | 0, _, _ => none
  | fuel + 1, depth, c :: t =>
    if c = '{' || c = '[' then
      (balancedTake fuel (depth + 1) t).map fun r => c :: r
    else if c = '}' || c = ']' then
      if depth = 1 then some [c]
      else (balancedTake fuel (depth - 1) t).map fun r => c :: r
    else
      (balancedTake fuel depth t).map fun r => c :: r

/-- Modelled from the spec: the first balanced `{...}` or `[...]` span of
the text, as the claim describes the interpreter fallback. -/
def firstBalancedSpanData : List Char → Option (List Char)
  | [] => none
  | l@(c :: t) =>
    if c = '{' || c = '[' then
      match balancedTake (l.length + 1) 0 l with
      | some span => some span
      | none => firstBalancedSpanData t
    else firstBalancedSpanData t

def firstBalancedSpan (s : String) : Option String :=
  (firstBalancedSpanData s.data).map fun l => ⟨l⟩

/-- C3 counterexample: on the input `"prefix [1, 2] suffix"` there is no
fenced block and the claimed step (2) — the first balanced span — finds
`[1, 2]`, which parses to the array `[1, 2]`; yet the interpreter returns
the `raw_response` sentinel, because the source's fallback regex searches
only for a greedy first-brace-to-last-brace `{...}` match and never looks
for a bracketed `[...]` span. -/
theorem response_interpreter_counterexample :
    fencedBlock "prefix [1, 2] suffix" = none ∧
    (firstBalancedSpan "prefix [1, 2] suffix").bind pyLoads =
      some (Json.arr [Json.num 1, Json.num 2]) ∧
    tools_parse_json "prefix [1, 2] suffix" =
      rawSentinel "prefix [1, 2] suffix" := by
  refine ⟨rfl, rfl, rfl⟩

/-- C3, amended: for every raw oracle text both `_parse_json` variants
attempt, in order: (1) a fenced structured-data block; (2) failing that,
the span from the first opening brace to the last closing brace of the text
(a greedy, not balance-aware match, with no bracket-span alternative, so a
bare array is only parsed when the whole text is valid JSON); (3) failing
that, the whole text; if the selected candidate fails to parse, the value
degrades to the sentinel (the `raw_response` object, resp. the fixed
parse-error/complete decision).  The embedded functions are total: no
exception crosses this boundary. -/
theorem response_interpreter_fallback (s : String) :
    (∀ c, fencedBlock s = some c → jsonCandidate s = c) ∧
    (fencedBlock s = none → ∀ m, braceSpan s = some m → jsonCandidate s = m) ∧
    (fencedBlock s = none → braceSpan s = none → jsonCandidate s = s) ∧
    (∀ v, pyLoads (jsonCandidate s) = some v →
      tools_parse_json s = v ∧ agent_parse_json s = v) ∧
    (pyLoads (jsonCandidate s) = none →
      tools_parse_json s = rawSentinel s ∧ agent_parse_json s = decisionSentinel) := by
  refine ⟨?_, ?_, ?_, ?_, ?_⟩
  · intro c hc
    simp [jsonCandidate, hc]
  · intro hf m hm
    simp [jsonCandidate, hf, hm]
  · intro hf hb
    simp [jsonCandidate, hf, hb]
  · intro v hv
    exact ⟨by simp [tools_parse_json, hv], by simp [agent_parse_json, hv]⟩
  · intro h
    exact ⟨by simp [tools_parse_json, h], by simp [agent_parse_json, h]⟩

/-- Witness for `response_interpreter_fallback`: unparseable text degrades
to both sentinels. -/
theorem response_interpreter_fallback_witness :
    pyLoads (jsonCandidate "garbage text") = none ∧
    tools_parse_json "garbage text" = rawSentinel "garbage text" ∧
    agent_parse_json "garbage text" = decisionSentinel :=
  ⟨rfl, ((response_interpreter_fallback "garbage text").2.2.2.2 rfl).1,
    ((response_interpreter_fallback "garbage text").2.2.2.2 rfl).2⟩

/-! ## Pacer (src/modules/rate_limiter.py)

Clock readings are explicit `Rat` parameters; `acquire` is idealized to
zero processing time, so the timestamp recorded after sleeping for `wait`
seconds starting at clock time `t` is `t + wait`. -/

structure RLState where
  requests_per_minute : Nat
  min_request_interval : Rat
  request_history : List Rat
  last_request_time : Option Rat
  deriving Repr

/-- `max(wait_times) if wait_times else 0.0`. -/
def pyMax : List Rat → Rat
  | [] => 0
  | w :: ws => ws.foldl max w

/-- `RateLimiter._calculate_wait_time` at clock time `t`: collect the
minimum-interval wait and the sliding-window wait when each binds, and
return the largest (zero if neither binds).  When the capacity is 0 and the
history empty, the Python indexing `request_history[0]` would raise; that
corner (reached only with `requests_per_minute = 0`) is modelled as no
window constraint, and every theorem below assumes a positive capacity. -/
def calculate_wait_time (st : RLState) (t : Rat) : Rat :=
  let wait_times : List Rat :=
    (match st.last_request_time with
     | some lt =>
       if t - lt < st.min_request_interval then [st.min_request_interval - (t - lt)] else []
     | none => []) ++
    (if st.requests_per_minute ≤ st.request_history.length then
      (match st.request_history.head? with
       | some oldest => if t - oldest < 60 then [60 - (t - oldest)] else []
       | none => [])
     else [])
  pyMax wait_times

/-- `deque(maxlen=N).append(x)`: the oldest entries are evicted once the
capacity is exceeded (a capacity-0 deque stays empty). -/
def pushCap (n : Nat) (h : List Rat) (x : Rat) : List Rat :=
  if n = 0 then []
  else if n ≤ h.length then (h.drop (h.length + 1 - n)) ++ [x]
  else h ++ [x]

/-- `RateLimiter._record_request` at clock time `t`. -/
def record_request (st : RLState) (t : Rat) : RLState :=
  { st with
    request_history := pushCap st.requests_per_minute st.request_history t
    last_request_time := some t }

/-- `RateLimiter.acquire`: compute the wait at clock time `t`, sleep for
it, then record the request; returns the time waited. -/
def acquire (st : RLState) (t : Rat) : Rat × RLState :=
  let wait := calculate_wait_time st t
  (wait, record_request st (t + wait))

/-- `RateLimiter.__init__`. -/
def rlInit (rpm : Nat) (minInterval : Rat) : RLState :=
  ⟨rpm, minInterval, [], none⟩

/-- The state transition of one `acquire` call at clock time `t`. -/
def acquireAt (t : Rat) (st : RLState) : RLState := (acquire st t).2

/-- The wait the minimum-interval constraint demands (zero when it does not
bind). -/
def intervalNeed (st : RLState) (t : Rat) : Rat :=
  match st.last_request_time with
  | some lt =>
    if t - lt < st.min_request_interval then st.min_request_interval - (t - lt) else 0
  | none => 0

/-- The wait the 60-second sliding-window cap demands (zero when the
history is below capacity or the oldest entry has already expired). -/
def windowNeed (st : RLState) (t : Rat) : Rat :=
  if st.requests_per_minute ≤ st.request_history.length then
    match st.request_history.head? with
    | some oldest => if t - oldest < 60 then 60 - (t - oldest) else 0
    | none => 0
  else 0

theorem calculate_wait_time_eq_max (st : RLState) (t : Rat) :
    calculate_wait_time st t = max (intervalNeed st t) (windowNeed st t) := by
  obtain ⟨rpm, minI, hist, last⟩ := st
  unfold calculate_wait_time intervalNeed windowNeed
  rcases last with _ | lt <;> rcases hist with _ | ⟨o, hist'⟩ <;>
    dsimp only [List.head?] <;>
    split_ifs <;>
    simp only [pyMax, List.nil_append, List.append_nil, List.cons_append,
      List.foldl] <;>
    first
      | rfl
      | (symm; apply max_eq_left; linarith)
      | (symm; apply max_eq_right; linarith)

theorem rl_fill (N : Nat) :
    ∀ k, k ≤ N →
      (acquireAt 0)^[k] (rlInit N 0) =
        ⟨N, 0, List.replicate k 0, if k = 0 then none else some 0⟩ := by
  intro k
  induction k with
  | zero => intro _; rfl
  | succ k ih =>
    intro hk
    rw [Function.iterate_succ_apply', ih (by omega)]
    have hkN : ¬ (N ≤ k) := by omega
    have hN0 : ¬ (N = 0) := by omega
    unfold acquireAt acquire calculate_wait_time record_request pushCap
    dsimp only
    rw [List.length_replicate]
    by_cases hk0 : k = 0
    · subst hk0
      simp [pyMax, hkN, hN0, List.replicate]
    · simp only [hk0, if_false, hkN, hN0]
      have hlt : ¬ ((0:Rat) - 0 < 0) := by norm_num
      simp [pyMax, hlt, hkN, hN0]
      rw [← List.replicate_succ']

/-- C6: the Pacer wait is the larger of the minimum-interval demand and the
60-second-window demand (zero when neither binds); after waiting, the
call's timestamp is recorded (both as `last_request_time` and as the newest
history entry); and from a fresh limiter with window cap N and zero minimum
interval, after N immediate calls the (N+1)-th call at time τ < 60 waits
exactly 60 - τ, i.e. until the oldest recorded call reaches 60 seconds of
age. -/
theorem rate_limiter_wait_spec (st : RLState) (t : Rat)
    (hrpm : 1 ≤ st.requests_per_minute) :
    (acquire st t).1 = max (intervalNeed st t) (windowNeed st t) ∧
    (acquire st t).2.last_request_time = some (t + (acquire st t).1) ∧
    (acquire st t).2.request_history.getLast? = some (t + (acquire st t).1) ∧
    (∀ N : Nat, 1 ≤ N → ∀ τ : Rat, 0 ≤ τ → τ < 60 →
      (acquire ((acquireAt 0)^[N] (rlInit N 0)) τ).1 = 60 - τ ∧
      τ + (acquire ((acquireAt 0)^[N] (rlInit N 0)) τ).1 = 60) := by
  refine ⟨calculate_wait_time_eq_max st t, rfl, ?_, ?_⟩
  · show (pushCap st.requests_per_minute st.request_history _).getLast? = _
    unfold pushCap
    split_ifs with h0 h1
    · omega
    · exact List.getLast?_concat _
    · exact List.getLast?_concat _
  · intro N hN τ hτ0 hτ60
    have hN0 : ¬ (N = 0) := by omega
    have hw : (acquire ((acquireAt 0)^[N] (rlInit N 0)) τ).1 = 60 - τ := by
      rw [rl_fill N N le_rfl]
      unfold acquire calculate_wait_time
      dsimp only
      simp only [hN0, if_false]
      have h1 : ¬ (τ - 0 < 0) := by linarith
      have h2 : N ≤ (List.replicate N (0:Rat)).length := by
        rw [List.length_replicate]
      have h3 : (List.replicate N (0:Rat)).head? = some 0 := by
        cases N with
        | zero => exact absurd rfl hN0
        | succ n => rfl
      rw [h3]
      have h4 : ¬ τ < 0 := by linarith
      simp [pyMax, h1, h2, h4, hτ60]
    exact ⟨hw, by rw [hw]; ring⟩

/-- Witness for `rate_limiter_wait_spec` at a fresh limiter with the
source defaults (cap 10, minimum interval 6 seconds). -/
theorem rate_limiter_wait_spec_witness :
    1 ≤ (rlInit 10 6).requests_per_minute ∧
    (acquire (rlInit 10 6) 0).1 =
      max (intervalNeed (rlInit 10 6) 0) (windowNeed (rlInit 10 6) 0) :=
  ⟨by decide, (rate_limiter_wait_spec (rlInit 10 6) 0 (by decide)).1⟩

/-! ## Configuration module (src/config.py)

The module-level names defined by `config.py`, against which the
orchestrator's attribute read `config.MAX_API_CALLS_PER_EXTRACTION` is
resolved, plus the `apply_preset` mechanism that can inject preset keys
into the module namespace via `globals()`. -/

def configNames : List String :=
  ["USE_RATE_LIMITING", "USE_BATCHING", "USE_SUMMARIZATION",
   "USE_EMBEDDING_FILTER", "USE_DETAILED_ANALYSIS",
   "RATE_LIMIT_RPM", "MIN_REQUEST_INTERVAL",
   "MAX_PATENTS_TO_FETCH", "MAX_PATENTS_TO_ANALYZE",
   "MAX_PATENTS_FOR_DETAILED_ANALYSIS",
   "BATCH_SIZE_SEARCH", "BATCH_SIZE_DETAILS", "BATCH_SIZE_ANALYSIS",
   "SUMMARIZER_METHOD", "MAX_ABSTRACT_SENTENCES", "MAX_CLAIM_SENTENCES",
   "EMBEDDING_MODEL", "SIMILARITY_THRESHOLD", "TOP_K_PATENTS",
   "DEFAULT_LLM_MODEL", "DEFAULT_MAX_TOKENS", "DEFAULT_TEMPERATURE",
   "USE_LLM_WEB_SEARCH", "MAX_SEARCH_QUERIES", "MAX_RESULTS_PER_QUERY",
   "DEFAULT_OUTPUT_DIR", "DEFAULT_OUTPUT_FILE",
   "INCLUDE_SEARCH_METADATA", "INCLUDE_FULL_ABSTRACTS", "INCLUDE_CLAIMS",
   "VERBOSE_LOGGING", "LOG_API_CALLS", "LOG_RATE_LIMIT_WAITS",
   "get_preset_config", "apply_preset", "print_config_summary"]

/-- The keys of each preset returned by `get_preset_config` (an unknown
preset name yields the empty override set). -/
def presetKeys (preset : String) : List String :=
  if preset = "testing" then
    ["USE_RATE_LIMITING", "USE_BATCHING", "USE_SUMMARIZATION",
     "USE_EMBEDDING_FILTER", "USE_DETAILED_ANALYSIS",
     "MAX_PATENTS_TO_FETCH", "MAX_PATENTS_TO_ANALYZE",
     "MAX_PATENTS_FOR_DETAILED_ANALYSIS"]
  else if preset = "quick_scan" then
    ["USE_RATE_LIMITING", "USE_BATCHING", "USE_SUMMARIZATION",
     "USE_EMBEDDING_FILTER", "USE_DETAILED_ANALYSIS",
     "MAX_PATENTS_TO_FETCH", "MAX_PATENTS_TO_ANALYZE"]
  else if preset = "budget" then
    ["USE_RATE_LIMITING", "USE_BATCHING", "USE_SUMMARIZATION",
     "USE_EMBEDDING_FILTER", "USE_DETAILED_ANALYSIS",
     "MAX_PATENTS_TO_FETCH", "MAX_PATENTS_TO_ANALYZE",
     "MAX_PATENTS_FOR_DETAILED_ANALYSIS"]
  else if preset = "comprehensive" then
    ["USE_RATE_LIMITING", "USE_BATCHING", "USE_SUMMARIZATION",
     "USE_EMBEDDING_FILTER", "USE_DETAILED_ANALYSIS",
     "MAX_PATENTS_TO_FETCH", "MAX_PATENTS_TO_ANALYZE",
     "MAX_PATENTS_FOR_DETAILED_ANALYSIS"]
  else []

/-- `hasattr(config, name)` for the module as written. -/
def config_has (name : String) : Bool := configNames.contains name

/-- `hasattr(config, name)` after `apply_preset(preset)` has injected the
preset keys into the module globals. -/
def config_has_after_preset (preset name : String) : Bool :=
  (configNames ++ presetKeys preset).contains name

/-- `AutonomousOrchestrator.__init__` up to the attribute read
`config.MAX_API_CALLS_PER_EXTRACTION`: the read raises `AttributeError`
when the module does not define the name, so construction fails before any
orchestration can start. -/
def orchestrator_init_result : Except String Unit :=
  if config_has "MAX_API_CALLS_PER_EXTRACTION" then Except.ok ()
  else Except.error
    "AttributeError: module config has no attribute MAX_API_CALLS_PER_EXTRACTION"

/-- C9: constructing an AutonomousOrchestrator always fails — `config.py`
defines no `MAX_API_CALLS_PER_EXTRACTION` constant (not even through any
preset applied via `apply_preset`), so the budget ceiling is undefined and
`__init__` raises for every client. -/
theorem config_budget_attr_missing :
    orchestrator_init_result =
      Except.error
        "AttributeError: module config has no attribute MAX_API_CALLS_PER_EXTRACTION" ∧
    config_has "MAX_API_CALLS_PER_EXTRACTION" = false ∧
    ∀ preset : String,
      config_has_after_preset preset "MAX_API_CALLS_PER_EXTRACTION" = false := by
  refine ⟨rfl, rfl, ?_⟩
  intro preset
  unfold config_has_after_preset presetKeys
  split_ifs <;> decide

/-! ## Agent loops and orchestrator

The generation oracle is abstracted as a list of `OStep`s consumed one per
loop iteration: each step carries the Decision that `decide_next_action`
would parse from the oracle text, together with the raw output an LLM-backed
tool would produce if that iteration invokes one.  An exhausted oracle
behaves like unparseable output, i.e. the parse-error sentinel decision
(`action = "complete"`).  Python dict values are embedded in `Value`;
JSON-derived dicts whose field types the deterministic scorer cannot
process (where CPython would raise inside the tool body, caught by
`execute_action`) are recognised by `wellTypedMap`. -/

inductive Value where
  | vStr (s : String) : Value
  | vNum (q : Rat) : Value
  | vBool (b : Bool) : Value
  | vList (l : List String) : Value
  | vObj (fields : List (String × Value)) : Value
  deriving Repr

abbrev RecordMap := List (String × Value)

def mapGet (m : RecordMap) (k : String) : Option Value :=
  (m.find? (fun p => p.1 == k)).map (fun p => p.2)

def mapKeys (m : RecordMap) : List String := m.map (fun p => p.1)

/-- Python dict assignment `m[k] = v`: replace in place when the key
exists, append otherwise (CPython preserves insertion order). -/
def mapInsert (m : RecordMap) (k : String) (v : Value) : RecordMap :=
  if m.any (fun p => p.1 == k) then
    m.map (fun p => if p.1 == k then (k, v) else p)
  else m ++ [(k, v)]

/-- Python `m.update(d)`. -/
def mapUpdate (m : RecordMap) (d : RecordMap) : RecordMap :=
  d.foldl (fun acc p => mapInsert acc p.1 p.2) m

/-- Python truthiness of the embedded values. -/
def truthy : Value → Bool
  | .vStr s => !s.isEmpty
  | .vNum q => !(decide (q = 0))
  | .vBool b => b
  | .vList l => !l.isEmpty
  | .vObj m => !m.isEmpty

def getStrOpt (m : RecordMap) (k : String) : Option String :=
  match mapGet m k with
  | some (.vStr s) => some s
  | _ => none

def getListOpt (m : RecordMap) (k : String) : Option (List String) :=
  match mapGet m k with
  | some (.vList l) => some l
  | _ => none

def getCtxOpt (m : RecordMap) : Option RecContext :=
  match mapGet m "context" with
  | some (.vObj c) =>
    some
      { document_section :=
          match mapGet c "document_section" with
          | some (.vStr s) => some s
          | _ => none
        confidence_score :=
          match mapGet c "confidence_score" with
          | some (.vNum q) => some q
          | _ => none }
  | _ => none

/-- Typed view of a JSON-derived dict used by the deterministic scorer.  On
maps accepted by `wellTypedMap` this is exactly how the Python scorer reads
the dict; on other maps the Python scorer may raise inside the tool body
(surfaced as a tool error), a region the theorems below avoid through the
`wellTypedMap` hypothesis. -/
def toRecord (m : RecordMap) : Record :=
  { invention_id := getStrOpt m "invention_id"
    invention_name := getStrOpt m "invention_name"
    technical_description := getStrOpt m "technical_description"
    problem_statement := getStrOpt m "problem_statement"
    solution_approach := getStrOpt m "solution_approach"
    key_technical_features := getListOpt m "key_technical_features"
    statutory_category := getStrOpt m "statutory_category"
    domain_classification := getStrOpt m "domain_classification"
    inventor_keywords := getListOpt m "inventor_keywords"
    context := getCtxOpt m }

def isStrV : Value → Bool
  | .vStr _ => true
  | _ => false

def isListV : Value → Bool
  | .vList _ => true
  | _ => false

def isNumV : Value → Bool
  | .vNum _ => true
  | _ => false

def fieldWT (m : RecordMap) (k : String) (p : Value → Bool) : Bool :=
  match mapGet m k with
  | some v => p v
  | none => true

def ctxWT : Value → Bool
  | .vObj c => fieldWT c "document_section" isStrV && fieldWT c "confidence_score" isNumV
  | _ => false

/-- The value-type discipline under which the Python scorer processes a
JSON-derived dict without raising, reading it exactly as `toRecord` does. -/
def wellTypedMap (m : RecordMap) : Bool :=
  fieldWT m "technical_description" isStrV &&
  fieldWT m "problem_statement" isStrV &&
  fieldWT m "solution_approach" isStrV &&
  fieldWT m "statutory_category" isStrV &&
  fieldWT m "domain_classification" isStrV &&
  fieldWT m "key_technical_features" isListV &&
  fieldWT m "inventor_keywords" isListV &&
  fieldWT m "context" ctxWT

/-- The dict returned by `ToolRegistry.validator` on success. -/
structure VRes where
  score : Nat
  issues : List String
  breakdown : List (String × String)
  valid : Bool
  deriving Repr

def mkVRes (sr : ScoreResult) : VRes :=
  { score := sr.total_score
    issues := sr.issues
    breakdown := sr.breakdown
    valid := decide (85 ≤ sr.total_score) }

/-- `ToolRegistry.validator`: the deterministic scoring tool.  A non-dict
argument or an ill-typed dict makes the Python scorer raise inside the tool
body (caught at the `execute_action` boundary). -/
def tool_validator (inv : Value) : Except String VRes :=
  match inv with
  | .vObj m =>
    if wellTypedMap m then Except.ok (mkVRes (score_invention (toRecord m)))
    else Except.error "TypeError"
  | _ => Except.error "AttributeError"

def vresToValue (r : VRes) : Value :=
  .vObj [("score", .vNum r.score), ("issues", .vList r.issues),
    ("breakdown", .vObj (r.breakdown.map (fun p => (p.1, Value.vStr p.2)))),
    ("valid", .vBool r.valid)]

def requiredFieldNames : List String :=
  ["invention_id", "invention_name", "technical_description", "problem_statement",
   "solution_approach", "key_technical_features", "statutory_category",
   "domain_classification", "inventor_keywords", "context"]

/-- `ToolRegistry.quick_validator`: `f not in invention or not invention[f]`
(key absent or value falsy). -/
def tool_quick_validator (inv : Value) : Except String Value :=
  match inv with
  | .vObj m =>
    let missing := requiredFieldNames.filter (fun f =>
      match mapGet m f with
      | some v => !truthy v
      | none => true)
    Except.ok (.vObj [("complete", .vBool missing.isEmpty),
      ("missing_fields", .vList missing),
      ("field_count", .vNum ((10 - missing.length : Nat) : Rat))])
  | _ => Except.error "TypeError"

/-- Python `len` on the embedded values (raises on numbers and booleans). -/
def pyLen (v : Value) : Except String Nat :=
  match v with
  | .vStr s => .ok s.length
  | .vList l => .ok l.length
  | .vObj m => .ok m.length
  | _ => .error "TypeError"

/-- `ToolRegistry.field_counter`. -/
def tool_field_counter (inv : Value) : Except String Value :=
  match inv with
  | .vObj m => do
    let fc ← pyLen ((mapGet m "key_technical_features").getD (.vList []))
    let kc ← pyLen ((mapGet m "inventor_keywords").getD (.vList []))
    let dl ← pyLen ((mapGet m "technical_description").getD (.vStr ""))
    let pl ← pyLen ((mapGet m "problem_statement").getD (.vStr ""))
    let sl ← pyLen ((mapGet m "solution_approach").getD (.vStr ""))
    Except.ok (.vObj [("feature_count", .vNum fc), ("keyword_count", .vNum kc),
      ("description_length", .vNum dl), ("problem_length", .vNum pl),
      ("solution_length", .vNum sl),
      ("total_content_length", .vNum ((dl + pl + sl : Nat) : Rat))])
  | _ => Except.error "TypeError"

/-- One step's policy output (the Decision parsed from the oracle text) and
the raw output an LLM-backed tool invoked on that iteration would return. -/
structure Decision where
  action : String
  tool_params : RecordMap
  deriving Repr

structure OStep where
  decision : Decision
  toolOut : Except String Value
  deriving Repr

/-- An exhausted oracle degrades to the parse-error sentinel decision
(`action = "complete"`, section 4.2 of the interpreter). -/
def defaultStep : OStep := ⟨⟨"complete", []⟩, .error "no oracle"⟩

def takeStep : List OStep → OStep × List OStep
  | [] => (defaultStep, [])
  | s :: r => (s, r)

def hasParam (ps : RecordMap) (k : String) : Bool := ps.any (fun p => p.1 == k)

/-- CPython keyword-argument binding for `tool(**params)`: every required
name present, no unexpected names (otherwise `TypeError` before the body
runs). -/
def kwargsOk (req opt : List String) (ps : RecordMap) : Bool :=
  req.all (fun k => hasParam ps k) &&
  (mapKeys ps).all (fun k => req.contains k || opt.contains k)

/-- The tool bodies of `ToolRegistry`, dispatched by name: LLM-backed tools
return the oracle-provided output of the current step; deterministic tools
compute.  Signatures are taken from the source methods. -/
def runRegistryTool (step : OStep) (name : String) (ps : RecordMap) :
    Except String Value :=
  if name = "pdf_reader" then
    if kwargsOk ["pdf_path"] [] ps then step.toolOut else .error "TypeError"
  else if name = "llm_extractor" then
    if kwargsOk [] ["prompt", "pdf_path", "context"] ps then step.toolOut
    else .error "TypeError"
  else if name = "section_reader" then
    if kwargsOk ["pdf_path", "section_name"] [] ps then step.toolOut
    else .error "TypeError"
  else if name = "field_enhancer" then
    if kwargsOk ["field_name", "current_value", "invention_context"] [] ps then step.toolOut
    else .error "TypeError"
  else if name = "validator" then
    if kwargsOk ["invention"] [] ps then
      match mapGet ps "invention" with
      | some v => (tool_validator v).map vresToValue
      | none => .error "TypeError"
    else .error "TypeError"
  else if name = "quick_validator" then
    if kwargsOk ["invention"] [] ps then
      match mapGet ps "invention" with
      | some v => tool_quick_validator v
      | none => .error "TypeError"
    else .error "TypeError"
  else if name = "field_counter" then
    if kwargsOk ["invention"] [] ps then
      match mapGet ps "invention" with
      | some v => tool_field_counter v
      | none => .error "TypeError"
    else .error "TypeError"
  else .error ("Unknown tool: " ++ name)

inductive ExecResult where
  | complete : ExecResult
  | success (v : Value) : ExecResult
  | error (msg : String) : ExecResult
  deriving Repr

/-- `AutonomousAgent.execute_action`: the complete sentinel, the
unknown-tool error path (no tool invoked), and the tool invocation with
exceptions caught and converted to an error observation. -/
def execute_action (avail : List String)
    (runTool : String → RecordMap → Except String Value) (d : Decision) : ExecResult :=
  if d.action = "complete" then .complete
  else if !avail.contains d.action then .error ("Unknown tool: " ++ d.action)
  else
    match runTool d.action d.tool_params with
    | .ok v => .success v
    | .error e => .error e

def extractorTools : List String :=
  ["pdf_reader", "llm_extractor", "section_reader", "quick_validator", "field_counter"]

def validatorTools : List String := ["validator", "quick_validator", "field_counter"]

def refinerTools : List String :=
  ["llm_extractor", "field_enhancer", "section_reader", "field_counter", "quick_validator"]

/-! ### ExtractorAgent.run (src/agents/extractor_agent.py) -/

structure ExtractorOut where
  extraction : Value
  iteration : Nat
  oracle : List OStep
  deriving Repr

/-- The loop body of `ExtractorAgent.run`: `state["iteration"] = i + 1`,
decide (one oracle step), stop on `complete`, inject `pdf_path` when
absent, execute, fold an `llm_extractor` success into the extraction, and
stop early once the extraction dict has at least 8 keys. -/
def extractor_go (pdf : String) : Nat → Nat → Value → List OStep → ExtractorOut
  | 0, iter, ext, or => ⟨ext, iter, or⟩
  | rem + 1, iter, ext, or =>
    let i := iter + 1
    let (step, or') := takeStep or
    if step.decision.action = "complete" then ⟨ext, i, or'⟩
    else
      let ps :=
        if hasParam step.decision.tool_params "pdf_path" then step.decision.tool_params
        else step.decision.tool_params ++ [("pdf_path", Value.vStr pdf)]
      let res := execute_action extractorTools (runRegistryTool step)
        ⟨step.decision.action, ps⟩
      let ext' :=
        match res with
        | .success v => if step.decision.action = "llm_extractor" then v else ext
        | _ => ext
      if (match ext' with
          | .vObj m => decide (8 ≤ m.length)
          | _ => false) then ⟨ext', i, or'⟩
      else extractor_go pdf rem i ext' or'

def extractor_run (pdf : String) (oracle : List OStep) (maxIter : Nat) : ExtractorOut :=
  extractor_go pdf maxIter 0 (Value.vObj []) oracle

/-! ### ValidatorAgent.run (src/agents/validator_agent.py) -/

structure ValidatorOut where
  results : Option VRes
  iteration : Nat
  decideCalls : Nat
  toolCalls : Nat
  oracle : List OStep
  deriving Repr

/-- The loop body of `ValidatorAgent.run`.  While `validation_done` is
false the agent executes the fixed `validator` decision without consuming a
gateway call; on success it stores the result and breaks with the iteration
counter at its current value.  The `else` branch (reached only if
`validation_done` were true without the loop having broken, which never
happens) consumes one gateway decision per iteration and discards tool
results, as the source does.  `decideCalls` counts gateway (decision)
calls and `toolCalls` counts invocations of the `validator` tool — ghost
instrumentation for the proofs. -/
def validator_go (inv : Value) :
    Nat → Nat → Bool → Option VRes → List OStep → Nat → Nat → ValidatorOut
  | 0, iter, _, results, or, dc, tc => ⟨results, iter, dc, tc, or⟩
  | rem + 1, iter, done, results, or, dc, tc =>
    let i := iter + 1
    if !done then
      match tool_validator inv with
      | .ok r => ⟨some r, i, dc, tc + 1, or⟩
      | .error _ => validator_go inv rem i false results or dc (tc + 1)
    else
      let (step, or') := takeStep or
      if step.decision.action = "complete" then ⟨results, i, dc + 1, tc, or'⟩
      else
        let ps :=
          if hasParam step.decision.tool_params "invention" then step.decision.tool_params
          else step.decision.tool_params ++ [("invention", inv)]
        let _ := execute_action validatorTools (runRegistryTool step)
          ⟨step.decision.action, ps⟩
        validator_go inv rem i done results or' (dc + 1)
          (if step.decision.action = "validator" then tc + 1 else tc)

def validator_run (inv : Value) (oracle : List OStep) (maxIter : Nat) : ValidatorOut :=
  validator_go inv maxIter 0 false none oracle 0 0

/-- `validation_result.get("score", 0)` over the value `ValidatorAgent.run`
returns (the empty dict when validation never succeeded). -/
def vresScore : Option VRes → Nat
  | some r => r.score
  | none => 0

/-! ### RefinerAgent.run (src/agents/refiner_agent.py) -/

structure RefinerOut where
  invention : Value
  iteration : Nat
  oracle : List OStep
  deriving Repr

def objInsert (v : Value) (k : String) (x : Value) : Value :=
  match v with
  | .vObj m => .vObj (mapInsert m k x)
  | other => other

def objUpdate (v : Value) (d : RecordMap) : Value :=
  match v with
  | .vObj m => .vObj (mapUpdate m d)
  | other => other

/-- The success-folding block of the refiner loop: a `field_enhancer`
success with a truthy string `field_name` parameter and a string result
overwrites that field; an `llm_extractor` success with a dict result is
merged via `update`; everything else leaves the invention unchanged.  (A
non-string truthy `field_name` would index the Python dict with a non-string
key, which the string-keyed `RecordMap` does not represent.) -/
def refinerFold (inv : Value) (action : String) (ps : RecordMap) (res : ExecResult) : Value :=
  match res with
  | .success v =>
    if action = "field_enhancer" then
      match mapGet ps "field_name" with
      | some (.vStr f) =>
        (match v with
         | .vStr s => if !f.isEmpty then objInsert inv f (.vStr s) else inv
         | _ => inv)
      | _ => inv
    else if action = "llm_extractor" then
      match v with
      | .vObj d => objUpdate inv d
      | _ => inv
    else inv
  | _ => inv

/-- The loop body of `RefinerAgent.run` with its parameter injections
(`pdf_path` for `section_reader` and `llm_extractor`, the current invention
as `invention_context` for `field_enhancer`, the issue summary as `context`
for `llm_extractor`). -/
def refiner_go (pdf : String) (issues : List String) :
    Nat → Nat → Value → List OStep → RefinerOut
  | 0, iter, inv, or => ⟨inv, iter, or⟩
  | rem + 1, iter, inv, or =>
    let i := iter + 1
    let (step, or') := takeStep or
    if step.decision.action = "complete" then ⟨inv, i, or'⟩
    else
      let ps0 := step.decision.tool_params
      let ps1 :=
        if step.decision.action = "section_reader" && !hasParam ps0 "pdf_path"
        then ps0 ++ [("pdf_path", Value.vStr pdf)] else ps0
      let ps2 :=
        if step.decision.action = "field_enhancer" && !hasParam ps1 "invention_context"
        then ps1 ++ [("invention_context", inv)] else ps1
      let ps3 :=
        if step.decision.action = "llm_extractor" && !hasParam ps2 "pdf_path"
        then ps2 ++ [("pdf_path", Value.vStr pdf)] else ps2
      let ps4 :=
        if step.decision.action = "llm_extractor" && !hasParam ps3 "context"
        then ps3 ++ [("context", Value.vStr ("Issues to fix: " ++ String.intercalate ", " issues))]
        else ps3
      let res := execute_action refinerTools (runRegistryTool step)
        ⟨step.decision.action, ps4⟩
      refiner_go pdf issues rem i (refinerFold inv step.decision.action ps4 res) or'

/-- `RefinerAgent.run`: early return (with the iteration counter still 0)
when the validation reports neither issues nor missing fields.  The
success-shaped validation dict carries no `missing_fields` key and a failed
validation is the empty dict, so `missing_fields` is `[]` in both cases. -/
def refiner_run (inv : Value) (validation : Option VRes) (pdf : String)
    (oracle : List OStep) (maxIter : Nat) : RefinerOut :=
  let issues := match validation with
    | some v => v.issues
    | none => []
  if issues.isEmpty then ⟨inv, 0, oracle⟩
  else refiner_go pdf issues maxIter 0 inv oracle

/-! ### AutonomousOrchestrator (src/agents/autonomous_orchestrator.py) -/

structure OrchResult where
  invention : Value
  score : ScoreResult
  total_api_calls : Nat
  threshold_met : Bool
  budget_exceeded : Bool
  /-- Ghost field for verification: the value of the orchestrator's local
  `invention` variable at the `return` point (what "the Record extracted so
  far" is when `_finalize` runs). -/
  currentInvention : Value
  deriving Repr

/-- The zero-equivalent ScoreResult literal of `_finalize` (the Python
literal carries no `recommendations` key; modelled as the empty list). -/
def zeroScoreResult : ScoreResult :=
  { total_score := 0
    rating := "⭐ Inadequate"
    breakdown := []
    issues := ["No invention extracted"]
    recommendations := [] }

/-- `self.scorer.score_invention(invention)` over an embedded value.  A
truthy non-dict invention would make the Python scorer raise; that region
is outside the modelled Record domain and none of the theorems below
depends on the score it would produce. -/
def scoreValue (v : Value) : ScoreResult :=
  match v with
  | .vObj m => score_invention (toRecord m)
  | _ => zeroScoreResult

/-- `AutonomousOrchestrator._finalize` (its `score` argument is ignored by
the source, which recomputes from the record): score the invention when
truthy, otherwise use the zero-equivalent result; report the call total and
the two flags. -/
def finalize (maxCalls : Nat) (inv : Value) (_sc : Nat) (total : Nat)
    (ghost : Value) : OrchResult :=
  let fsr := if truthy inv then scoreValue inv else zeroScoreResult
  { invention := inv
    score := fsr
    total_api_calls := total
    threshold_met := decide (85 ≤ fsr.total_score)
    budget_exceeded := decide (maxCalls ≤ total)
    currentInvention := ghost }

/-- The refinement `while` loop of `orchestrate`, with `fuel` the remaining
refinement rounds (3 at entry). -/
def refineLoop (maxCalls : Nat) (pdf : String) :
    Nat → Value → Option VRes → Nat → Nat → List OStep → OrchResult
  | 0, inv, _validation, cs, api, _or => finalize maxCalls inv cs api inv
  | fuel + 1, inv, validation, cs, api, or =>
    if cs < 85 ∧ api < maxCalls then
      let remaining := maxCalls - api
      let refinement_iterations := min 5 (remaining / 2)
      if refinement_iterations = 0 then finalize maxCalls inv cs api inv
      else
        let rout := refiner_run inv validation pdf or refinement_iterations
        let api1 := api + rout.iteration
        if maxCalls ≤ api1 then finalize maxCalls rout.invention cs api1 rout.invention
        else
          let validation_iterations := min 2 (maxCalls - api1)
          if validation_iterations = 0 then
            finalize maxCalls rout.invention cs api1 rout.invention
          else
            let vout := validator_run rout.invention rout.oracle validation_iterations
            let api2 := api1 + vout.iteration
            let cs2 := vresScore vout.results
            if 85 ≤ cs2 then finalize maxCalls rout.invention cs2 api2 rout.invention
            else refineLoop maxCalls pdf fuel rout.invention vout.results cs2 api2 vout.oracle
    else finalize maxCalls inv cs api inv

/-- `AutonomousOrchestrator.orchestrate` as a function of the budget
ceiling `maxCalls` (the value `__init__` would have read from the
configuration), the document path and the oracle. -/
def orchestrate (maxCalls : Nat) (pdf : String) (oracle : List OStep) : OrchResult :=
  let extraction_iterations := min 8 (maxCalls / 3)
  let eout := extractor_run pdf oracle extraction_iterations
  let api1 := eout.iteration
  if !truthy eout.extraction || decide (maxCalls ≤ api1) then
    finalize maxCalls (Value.vObj []) 0 api1 eout.extraction
  else
    let validation_iterations := min 2 (maxCalls - api1)
    if validation_iterations = 0 then
      finalize maxCalls eout.extraction 0 api1 eout.extraction
    else
      let vout := validator_run eout.extraction eout.oracle validation_iterations
      let api2 := api1 + vout.iteration
      refineLoop maxCalls pdf 3 eout.extraction vout.results (vresScore vout.results)
        api2 vout.oracle

/-! ### C10: the validator phase consumes exactly one call -/

/-- C10: whenever the deterministic scoring tool succeeds (the invention is
a dict the scorer processes without raising), `ValidatorAgent.run` with a
positive iteration cap makes no gateway/decision call, performs exactly one
validator-tool invocation, terminates after the first iteration with its
iteration counter equal to 1 (the unit the orchestrator adds to its budget
for this phase), leaves the oracle untouched, and returns the
scorer-derived validation result. -/
theorem validator_single_call (m : RecordMap) (oracle : List OStep) (maxIter : Nat)
    (hiter : 1 ≤ maxIter) (hwt : wellTypedMap m = true) :
    (validator_run (Value.vObj m) oracle maxIter).results =
      some (mkVRes (score_invention (toRecord m))) ∧
    (validator_run (Value.vObj m) oracle maxIter).iteration = 1 ∧
    (validator_run (Value.vObj m) oracle maxIter).decideCalls = 0 ∧
    (validator_run (Value.vObj m) oracle maxIter).toolCalls = 1 ∧
    (validator_run (Value.vObj m) oracle maxIter).oracle = oracle := by
  obtain ⟨n, rfl⟩ : ∃ n, maxIter = n + 1 := ⟨maxIter - 1, by omega⟩
  unfold validator_run validator_go
  simp [tool_validator, hwt]

/-- Witness for `validator_single_call` on the empty dict with cap 1. -/
theorem validator_single_call_witness :
    1 ≤ 1 ∧ wellTypedMap [] = true ∧
    (validator_run (Value.vObj []) [] 1).iteration = 1 ∧
    (validator_run (Value.vObj []) [] 1).decideCalls = 0 :=
  ⟨le_rfl, rfl, (validator_single_call [] [] 1 le_rfl rfl).2.1,
    (validator_single_call [] [] 1 le_rfl rfl).2.2.1⟩

/-! ### C2: the max_calls = 2 budget run -/

/-- C2 counterexample: with `max_calls = 2` the extractor iteration cap is
`min(8, 2 // 3) = 0`, so the extractor phase consumes zero calls (not
both), extraction produces nothing, and the orchestration result has
`budget_exceeded = False` (0 recorded calls is not `>= 2`), refuting the
claim that the extractor alone consumes both calls and that
`budget_exceeded = True`.  `total_score = 0` does hold. -/
theorem orchestrator_max2_counterexample :
    (orchestrate 2 "document.pdf" []).budget_exceeded = false ∧
    (orchestrate 2 "document.pdf" []).total_api_calls = 0 ∧
    (orchestrate 2 "document.pdf" []).score.total_score = 0 := by
  refine ⟨rfl, rfl, rfl⟩

/-- C2, amended: with `max_calls = 2` and any oracle, the extractor
iteration cap computes as `min(8, budget // 3) = 0`, the extractor runs
zero iterations and consumes zero calls, extraction produces nothing, and
the orchestration finalizes immediately with `score.total_score = 0`,
`total_api_calls = 0` and `budget_exceeded = False`. -/
theorem orchestrator_max2_behavior (pdf : String) (oracle : List OStep) :
    min 8 (2 / 3) = 0 ∧
    (orchestrate 2 pdf oracle).total_api_calls = 0 ∧
    (orchestrate 2 pdf oracle).score.total_score = 0 ∧
    (orchestrate 2 pdf oracle).budget_exceeded = false ∧
    (orchestrate 2 pdf oracle).invention = Value.vObj [] := by
  refine ⟨rfl, rfl, rfl, rfl, rfl⟩

/-! ### C1: budget exhaustion is a terminal condition -/

theorem extractor_go_iteration_le (pdf : String) :
    ∀ rem iter ext or, (extractor_go pdf rem iter ext or).iteration ≤ iter + rem := by
  intro rem
  induction rem with
  | zero => intro iter ext or; simp [extractor_go]
  | succ rem ih =>
    intro iter ext or
    unfold extractor_go
    rcases or with _ | ⟨s, rest⟩ <;>
      simp only [takeStep, defaultStep] <;>
      split_ifs <;>
      first
        | (dsimp only; omega)
        | exact le_trans (ih _ _ _) (by omega)

theorem extractor_run_iteration_le (pdf : String) (oracle : List OStep) (maxIter : Nat) :
    (extractor_run pdf oracle maxIter).iteration ≤ maxIter := by
  have := extractor_go_iteration_le pdf maxIter 0 (Value.vObj []) oracle
  simpa [extractor_run] using this

theorem finalize_fields (maxCalls : Nat) (inv : Value) (sc total : Nat) (ghost : Value) :
    (finalize maxCalls inv sc total ghost).total_api_calls = total ∧
    (finalize maxCalls inv sc total ghost).budget_exceeded = decide (maxCalls ≤ total) ∧
    (finalize maxCalls inv sc total ghost).invention = inv ∧
    (finalize maxCalls inv sc total ghost).currentInvention = ghost := by
  refine ⟨rfl, rfl, rfl, rfl⟩

theorem refineLoop_exhausted (maxCalls : Nat) (pdf : String) :
    ∀ fuel inv val cs api or,
      maxCalls ≤ (refineLoop maxCalls pdf fuel inv val cs api or).total_api_calls →
      (refineLoop maxCalls pdf fuel inv val cs api or).budget_exceeded = true ∧
      (refineLoop maxCalls pdf fuel inv val cs api or).invention =
        (refineLoop maxCalls pdf fuel inv val cs api or).currentInvention := by
  intro fuel
  induction fuel with
  | zero =>
    intro inv val cs api or h
    simp only [refineLoop, finalize] at h ⊢
    exact ⟨decide_eq_true h, by trivial⟩
  | succ fuel ih =>
    intro inv val cs api or h
    simp only [refineLoop] at h ⊢
    split_ifs at h ⊢ with h1 h2 h3 h4 h5
    · simp only [finalize] at h ⊢
      exact ⟨decide_eq_true h, by trivial⟩
    · simp only [finalize] at h ⊢
      exact ⟨decide_eq_true h, by trivial⟩
    · simp only [finalize] at h ⊢
      exact ⟨decide_eq_true h, by trivial⟩
    · simp only [finalize] at h ⊢
      exact ⟨decide_eq_true h, by trivial⟩
    · exact ih _ _ _ _ _ h
    · simp only [finalize] at h ⊢
      exact ⟨decide_eq_true h, by trivial⟩

/-- C1: budget exhaustion is a terminal condition, not an error — whenever
the recorded call total reaches the ceiling, the orchestrator still returns
a finalized result, flags `budget_exceeded`, and the result's record is the
orchestrator's current Record at the finalize point (the ghost
`currentInvention`).  The one site that passes a fresh empty dict to
`_finalize` (the early exit after extraction) is only reachable with an
exhausted budget when the budget is 0, in which case the extractor ran zero
iterations and the current Record is itself empty. -/
theorem orchestrator_budget_terminal (maxCalls : Nat) (pdf : String) (oracle : List OStep)
    (h : maxCalls ≤ (orchestrate maxCalls pdf oracle).total_api_calls) :
    (orchestrate maxCalls pdf oracle).budget_exceeded = true ∧
    (orchestrate maxCalls pdf oracle).invention =
      (orchestrate maxCalls pdf oracle).currentInvention := by
  simp only [orchestrate] at h ⊢
  split_ifs at h ⊢ with h1 h2
  · simp only [finalize] at h ⊢
    rcases Nat.eq_zero_or_pos maxCalls with hm | hm
    · subst hm
      have he : extractor_run pdf oracle (min 8 (0 / 3)) = ⟨Value.vObj [], 0, oracle⟩ := rfl
      rw [he]
      exact ⟨rfl, rfl⟩
    · exfalso
      have hle := extractor_run_iteration_le pdf oracle (min 8 (maxCalls / 3))
      have hdiv : maxCalls / 3 < maxCalls := Nat.div_lt_self hm (by norm_num)
      have : min 8 (maxCalls / 3) ≤ maxCalls / 3 := min_le_right _ _
      omega
  · simp only [finalize] at h ⊢
    exact ⟨decide_eq_true h, by trivial⟩
  · exact refineLoop_exhausted maxCalls pdf 3 _ _ _ _ _ h

/-- Witness for `orchestrator_budget_terminal`: a budget ceiling of 0 is
exhausted from the start. -/
theorem orchestrator_budget_terminal_witness :
    0 ≤ (orchestrate 0 "document.pdf" []).total_api_calls ∧
    (orchestrate 0 "document.pdf" []).budget_exceeded = true ∧
    (orchestrate 0 "document.pdf" []).invention =
      (orchestrate 0 "document.pdf" []).currentInvention :=
  ⟨Nat.zero_le _,
    (orchestrator_budget_terminal 0 "document.pdf" [] (Nat.zero_le _)).1,
    (orchestrator_budget_terminal 0 "document.pdf" [] (Nat.zero_le _)).2⟩

/-! ### C8: refinement never removes a populated field's key -/

theorem mapKeys_mapInsert (m : RecordMap) (k : String) (v : Value) :
    ∀ x ∈ mapKeys m, x ∈ mapKeys (mapInsert m k v) := by
  intro x hx
  unfold mapInsert
  split_ifs with hany
  · have heq : mapKeys (m.map (fun p => if p.1 == k then (k, v) else p)) = mapKeys m := by
      unfold mapKeys
      rw [List.map_map]
      apply List.map_congr_left
      intro p _
      by_cases hp : p.1 == k
      · have hpk : p.1 = k := by simpa using hp
        simp [hpk]
      · have hne : ¬ (p.1 = k) := by simpa using hp
        simp [hne]
    rw [heq]
    exact hx
  · unfold mapKeys at hx ⊢
    rw [List.map_append]
    exact List.mem_append_left _ hx

theorem mapKeys_mapUpdate (m d : RecordMap) :
    ∀ x ∈ mapKeys m, x ∈ mapKeys (mapUpdate m d) := by
  induction d generalizing m with
  | nil => intro x hx; exact hx
  | cons p d ih =>
    intro x hx
    have h1 := mapKeys_mapInsert m p.1 p.2 x hx
    have h2 := ih (mapInsert m p.1 p.2) x h1
    simpa [mapUpdate, List.foldl_cons] using h2

theorem refinerFold_keys (m : RecordMap) (action : String) (ps : RecordMap)
    (res : ExecResult) :
    ∃ m', refinerFold (Value.vObj m) action ps res = Value.vObj m' ∧
      ∀ x ∈ mapKeys m, x ∈ mapKeys m' := by
  unfold refinerFold
  rcases res with _ | v | e
  · exact ⟨m, rfl, fun x hx => hx⟩
  · split_ifs with h1 h2
    · rcases hf : mapGet ps "field_name" with _ | f
      · exact ⟨m, rfl, fun x hx => hx⟩
      · rcases f with s | q | b | l | fl
        · rcases v with s' | q' | b' | l' | fl'
          · dsimp only
            split_ifs with hs
            · exact ⟨mapInsert m s (Value.vStr s'), rfl, mapKeys_mapInsert m s _⟩
            · exact ⟨m, rfl, fun x hx => hx⟩
          · exact ⟨m, rfl, fun x hx => hx⟩
          · exact ⟨m, rfl, fun x hx => hx⟩
          · exact ⟨m, rfl, fun x hx => hx⟩
          · exact ⟨m, rfl, fun x hx => hx⟩
        · exact ⟨m, rfl, fun x hx => hx⟩
        · exact ⟨m, rfl, fun x hx => hx⟩
        · exact ⟨m, rfl, fun x hx => hx⟩
        · exact ⟨m, rfl, fun x hx => hx⟩
    · rcases v with s' | q' | b' | l' | fl'
      · exact ⟨m, rfl, fun x hx => hx⟩
      · exact ⟨m, rfl, fun x hx => hx⟩
      · exact ⟨m, rfl, fun x hx => hx⟩
      · exact ⟨m, rfl, fun x hx => hx⟩
      · exact ⟨mapUpdate m fl', rfl, mapKeys_mapUpdate m fl'⟩
    · exact ⟨m, rfl, fun x hx => hx⟩
  · exact ⟨m, rfl, fun x hx => hx⟩

theorem refiner_go_keys (pdf : String) (issues : List String) :
    ∀ rem iter or m,
      ∃ m', (refiner_go pdf issues rem iter (Value.vObj m) or).invention = Value.vObj m' ∧
        ∀ x ∈ mapKeys m, x ∈ mapKeys m' := by
  intro rem
  induction rem with
  | zero => intro iter or m; exact ⟨m, rfl, fun x hx => hx⟩
  | succ rem ih =>
    intro iter or m
    unfold refiner_go
    rcases or with _ | ⟨s, rest⟩ <;> simp only [takeStep, defaultStep]
    · exact ⟨m, rfl, fun x hx => hx⟩
    · by_cases hc : s.decision.action = "complete"
      · rw [if_pos hc]
        exact ⟨m, rfl, fun x hx => hx⟩
      · rw [if_neg hc]
        have step : ∀ (ps : RecordMap) (res : ExecResult) (or2 : List OStep),
            ∃ m', (refiner_go pdf issues rem (iter + 1)
                (refinerFold (Value.vObj m) s.decision.action ps res) or2).invention =
              Value.vObj m' ∧ ∀ x ∈ mapKeys m, x ∈ mapKeys m' := by
          intro ps res or2
          obtain ⟨m1, hm1, hsub1⟩ := refinerFold_keys m s.decision.action ps res
          rw [hm1]
          obtain ⟨m2, hm2, hsub2⟩ := ih (iter + 1) or2 m1
          exact ⟨m2, hm2, fun x hx => hsub2 x (hsub1 x hx)⟩
        exact step _ _ _

/-- C8: for every run of the refiner phase, every key present in the input
Record is present in the returned Record — refinement only overwrites via
dict assignment (`field_enhancer`) or `dict.update` (`llm_extractor`) and
never removes a key. -/
theorem refiner_preserves_keys (m : RecordMap) (validation : Option VRes)
    (pdf : String) (oracle : List OStep) (maxIter : Nat) (k : String)
    (hk : k ∈ mapKeys m) :
    ∃ m', (refiner_run (Value.vObj m) validation pdf oracle maxIter).invention =
        Value.vObj m' ∧ k ∈ mapKeys m' := by
  simp only [refiner_run]
  split_ifs with h
  · exact ⟨m, rfl, hk⟩
  · obtain ⟨m', hm', hsub⟩ := refiner_go_keys pdf _ maxIter 0 oracle m
    exact ⟨m', hm', hsub k hk⟩

/-- Witness for `refiner_preserves_keys` on a one-field record. -/
theorem refiner_preserves_keys_witness :
    "invention_name" ∈ mapKeys [("invention_name", Value.vStr "Router")] ∧
    ∃ m', (refiner_run (Value.vObj [("invention_name", Value.vStr "Router")])
        none "document.pdf" [] 3).invention = Value.vObj m' ∧
      "invention_name" ∈ mapKeys m' :=
  ⟨by decide,
    refiner_preserves_keys [("invention_name", Value.vStr "Router")] none
      "document.pdf" [] 3 "invention_name" (by decide)⟩
